import Mathlib

/-!
Shallow embedding of the `music_recode` repository (src/recode/__main__.py,
src/recode/recode.py) for checking its natural-language specification.

The embedding models:
  * the Python string primitives the code relies on (str.strip, str.partition,
    str.isdecimal, int(), float(), str.lower, pathlib suffix handling);
  * discovery (`create_plan` / `create_plans` in __main__.py): classification by
    lowercased extension, ignore handling, destination mirroring, sorting;
  * execution (`Plan.execute`, `FFMpegPlan`, `CopyPlan` in recode.py): the probe
    step, the tag/duration metadata, the ffmpeg progress protocol, and the
    bracketing of a task's visible state, with exceptions modelled by Except
    and external subprocess behaviour supplied as an explicit environment;
  * the scheduler loop in `main` (exec_worker over a thread pool), with the
    pool's nondeterministic completion order modelled by quantifying over
    permutations of the job list.
-/

/-! ### Python string primitives -/

/-- Python str.strip with no argument: remove whitespace from both ends. -/
def pyStrip (s : String) : String :=
  ⟨((s.data.dropWhile Char.isWhitespace).reverse.dropWhile Char.isWhitespace).reverse⟩

/-- Split a character list at the first occurrence of c: returns (before, after),
or none when c does not occur. Helper for Python str.partition. -/
def splitAtFirst (c : Char) : List Char → Option (List Char × List Char)
  | [] => none
  | d :: ds =>
    if d = c then some ([], ds)
    else (splitAtFirst c ds).map (fun p => (d :: p.1, p.2))

/-- Python s.partition(sep) for a one-character separator, keeping only the
(before, after) pair: when sep is absent, Python returns (s, "", ""), so the
"after" component is "". -/
def pyPartitionChar (c : Char) (s : String) : String × String :=
  match splitAtFirst c s.data with
  | some (k, v) => (⟨k⟩, ⟨v⟩)
  | none => (s, "")

/-- Python str.isdecimal, restricted to ASCII digits: nonempty and all digits. -/
def pyIsDecimal (s : String) : Bool :=
  !s.data.isEmpty && s.data.all Char.isDigit

/-- Value of a list of ASCII digit characters, most significant first. -/
def digitsVal (l : List Char) : Nat :=
  l.foldl (fun n c => n * 10 + (c.toNat - 48)) 0

/-- Python int(s) under the guard s.isdecimal(): plain digit parsing. -/
def pyInt (s : String) : Nat := digitsVal s.data

/-- Python float(s) on the plain decimal literals ffprobe emits (an optional
sign, digits, an optional fractional part); parsed exactly into ℚ. Returns
none when the string is not such a literal (float() raises ValueError). -/
def parsePyFloat (s : String) : Option ℚ :=
  let t := (pyStrip s).data
  let (neg, u) :=
    match t with
    | '-' :: r => (true, r)
    | '+' :: r => (false, r)
    | _ => (false, t)
  let (ip, fp) :=
    match splitAtFirst '.' u with
    | some (a, b) => (a, b)
    | none => (u, [])
  if ip.all Char.isDigit && fp.all Char.isDigit && !(ip.isEmpty && fp.isEmpty)
      && !fp.contains '.' then
    let mag : ℚ := (digitsVal (ip ++ fp) : ℚ) / ((10 : ℚ) ^ fp.length)
    some (if neg then -mag else mag)
  else none

/-- A single-quote character, used when modelling Python repr of strings. -/
def squoteChar : Char := Char.ofNat 39

/-- Python repr of a string, for strings with no quote or escape characters
(the only case the labels in this program exercise): wrap in single quotes. -/
def pyRepr (s : String) : String :=
  ⟨squoteChar :: s.data ++ [squoteChar]⟩

/-- Python str.lower, restricted to ASCII (all extensions compared against it
are ASCII): lowercase each character. -/
def pyLower (s : String) : String :=
  ⟨s.data.map Char.toLower⟩

/-! ### pathlib paths

A path is its tuple of parts. The repository only uses: name, suffix,
with_suffix, the / operator, relative_to (inverted here by passing relative
paths directly), and comparison for sorting. -/

structure PyPath where
  parts : List String
deriving DecidableEq, Repr

/-- pathlib name: the last path component (empty for an empty path). -/
def PyPath.name (p : PyPath) : String := p.parts.getLast?.getD ""

/-- The pathlib / operator restricted to a relative right operand. -/
def pyJoin (a b : PyPath) : PyPath := ⟨a.parts ++ b.parts⟩

/-- Index of the last dot in a character list, if any. -/
def lastDotIdx (l : List Char) : Option Nat :=
  ((l.enum.filter (fun p => p.2 == '.')).map (fun p => p.1)).getLast?

/-- pathlib PurePath.suffix on a file name: the substring from the last dot,
unless that dot is the first or last character (CPython: return name[i:] when
0 < i < len(name)-1 else ""). -/
def pySuffix (name : String) : String :=
  match lastDotIdx name.data with
  | some i => if 0 < i ∧ i < name.data.length - 1 then ⟨name.data.drop i⟩ else ""
  | none => ""

/-- pathlib with_suffix at the level of the file name: replace the old suffix
when there is one, else append the new suffix. -/
def pyWithSuffixName (name suffix : String) : String :=
  let old := pySuffix name
  if old = "" then name ++ suffix
  else ⟨name.data.take (name.data.length - old.data.length)⟩ ++ suffix

/-- pathlib with_suffix on a path: rewrite the last component's suffix. -/
def PyPath.withSuffix (p : PyPath) (suf : String) : PyPath :=
  ⟨p.parts.dropLast ++ [pyWithSuffixName p.name suf]⟩

/-- The string of a (posix) path, used as the sort key: pathlib compares paths
by their normalized string. -/
def pathStr (p : PyPath) : String := String.intercalate "/" p.parts

/-! ### Discovery: create_plan / create_plans (src/recode/__main__.py) -/

/-- The two plan variants of recode.py: FFMpegPlan (transcode) and CopyPlan. -/
inductive Variant
  | transcode
  | copy
deriving DecidableEq, Repr

/-- The data of a constructed plan that discovery fixes: source, destination
and variant (the progress handle is per-job state, modelled in the execution
section). -/
structure Job where
  source : PyPath
  dest : PyPath
  variant : Variant
deriving DecidableEq, Repr

/-- The classification create_plan's match statement performs on the lowercased
extension. The literal alternatives are exactly those of __main__.py lines
18-38 (".ogg" is listed twice in the copy alternative there; ".DS_Store" in
the skip alternative can never match a lowercased suffix but is kept as
written). -/
inductive Classification
  | transcode
  | copy
  | skip
  | unhandled
deriving DecidableEq, Repr

def classify (suffixLower : String) : Classification :=
  match suffixLower with
  | ".ape" | ".flac" | ".m4a" | ".mp4" => .transcode
  | ".ogg" | ".cue" | ".mp3" => .copy
  | ".jpg" | ".png" | ".log" | ".pdf" | ".txt" | ".ffp" | ".md5"
  | ".m3u" | ".nfo" | ".!qb" | ".jpeg" | ".accurip" | ".db"
  | ".html" | ".bmp" | ".sfv" | ".htm" | ".sh" | ".gif" | ".zsh"
  | ".swf" | ".exe" | ".inf" | ".DS_Store" | ".m3u8" | ".to" => .skip
  | _ => .unhandled

/-- create_plan(source, dest, render): the ignored_globs check (the single glob
".localized" has no wildcard or separator, so Path.match compares it to the
path's name), then the match on source.suffix.lower(). The skip and unhandled
arms both build no plan (the unhandled arm additionally prints a diagnostic,
which no claim depends on). -/
def create_plan (source dest : PyPath) : Option Job :=
  if source.name = ".localized" then none
  else
    match classify (pyLower (pySuffix source.name)) with
    | .transcode => some ⟨source, dest.withSuffix ".ogg", .transcode⟩
    | .copy => some ⟨source, dest, .copy⟩
    | .skip => none
    | .unhandled => none

/-- The body of create_plans' scan loop for one regular file, given by its path
relative to the source root: skip names equal to ".localized" (after the
scanned counter has already advanced), else call create_plan with the mirrored
destination dest = destRoot / rel. -/
def selectJob (src dst : PyPath) (rel : PyPath) : Option Job :=
  if (pyJoin src rel).name = ".localized" then none
  else create_plan (pyJoin src rel) (pyJoin dst rel)

/-- Sort key used by sorted(out, key=lambda v: v.source): pathlib compares
paths by their (posix) string, i.e. code-point lexicographically, modelled as
the lexicographic order on the character list. -/
def jobKey (j : Job) : List Char := (pathStr j.source).data

/-- The comparison sorted() performs between two plans under the key above. -/
def jobLEkey (a b : Job) : Prop := jobKey a ≤ jobKey b

instance : DecidableRel jobLEkey :=
  fun a b => inferInstanceAs (Decidable (jobKey a ≤ jobKey b))

/-- Python's sorted() is a stable comparison sort; any stable sort by the same
total preorder produces the same list, so it is modelled by insertion sort. -/
def sortJobs (l : List Job) : List Job := List.insertionSort jobLEkey l

/-- Result of the discovery phase: the sorted job list, the final value of the
files-scanned counter, and the total the selected counter is fixed to. -/
structure DiscoverResult where
  jobs : List Job
  scanned : Nat
  selectedTotal : Nat
deriving DecidableEq, Repr

/-- create_plans(source, dest, render). The directory walk is abstracted to the
list of regular files it yields, each given by its path relative to the source
root (the code recovers exactly this with local_source.relative_to(source)).
A missing source root yields no jobs. Each file advances the scanned counter;
selection is selectJob; the selected total is fixed to the number of plans
built; the result is sorted by source path. -/
def create_plans (srcExists : Bool) (files : List PyPath) (src dst : PyPath) :
    DiscoverResult :=
  if srcExists then
    let out := files.filterMap (selectJob src dst)
    { jobs := sortJobs out
      scanned := files.length
      selectedTotal := out.length }
  else
    { jobs := [], scanned := 0, selectedTotal := 0 }

/-! ### Progress handles (rich Progress tasks, as the engine drives them)

Only the task fields the engine reads or writes are modelled: description,
started, visible, total, completed, plus the operation_type field the plans
pass at registration. rich defaults: total=100, completed=0. -/

structure TaskState where
  description : String
  opType : String
  started : Bool
  visible : Bool
  total : Option ℚ
  completed : Nat
deriving DecidableEq, Repr

/-- Errors a job's execution can raise; each constructor names the Python
exception class it stands for. -/
inductive PyError
  | calledProcessError (code : Int)
  | jsonDecodeError
  | keyError (k : String)
  | valueError
  | ioError
deriving DecidableEq, Repr

/-- Plan.__post_init__: progress.add_task(description=source.name, start=False,
visible=False, operation_type=type). -/
def Plan.add_task (sourceName opType : String) : TaskState :=
  { description := sourceName
    opType := opType
    started := false
    visible := false
    total := some 100
    completed := 0 }

/-- Plan.start_task (the base-class version): start the task and make it
visible. -/
def Plan.start_task (st : TaskState) : TaskState :=
  { st with started := true, visible := true }

/-- Plan.completed: progress.update(task_id, visible=False). -/
def Plan.completed (st : TaskState) : TaskState :=
  { st with visible := false }

/-! ### FFMpegPlan (src/recode/recode.py) -/

/-- The ffprobe format section the code consumes. The TypedDict declares more
fields; only duration, size and tags are read. tags = none models well-formed
JSON whose format object has no "tags" key (a dict lookup on it raises
KeyError). -/
structure FFProbeFormat where
  duration : String
  size : String
  tags : Option (List (String × String))
deriving DecidableEq, Repr

structure FFProbeOutput where
  format : FFProbeFormat
deriving DecidableEq, Repr

/-- Behaviour of one ffprobe subprocess run: its exit code, and the parse of
its standard output (none models output json.loads rejects). -/
structure ProbeRun where
  returncode : Int
  parsed : Option FFProbeOutput
deriving DecidableEq, Repr

/-- FFMpegPlan.file_info: run ffprobe, res.check_returncode() (raises
CalledProcessError on a non-zero exit), then json.loads(res.stdout) (raises
JSONDecodeError on unparseable output). -/
def FFMpegPlan.file_info (pr : ProbeRun) : Except PyError FFProbeOutput :=
  if pr.returncode ≠ 0 then .error (.calledProcessError pr.returncode)
  else
    match pr.parsed with
    | none => .error .jsonDecodeError
    | some out => .ok out

/-- FFMpegPlan.format: self.file_info["format"]. -/
def FFMpegPlan.format (pr : ProbeRun) : Except PyError FFProbeFormat :=
  (FFMpegPlan.file_info pr).map (fun o => o.format)

/-- FFMpegPlan.duration: float(self.format["duration"]) * 1_000_000. float()
raises ValueError on a non-numeric string. -/
def FFMpegPlan.duration (pr : ProbeRun) : Except PyError ℚ :=
  match FFMpegPlan.format pr with
  | .error e => .error e
  | .ok fmt =>
    match parsePyFloat fmt.duration with
    | none => .error .valueError
    | some d => .ok (d * 1000000)

/-- Python dict.get(key, default). -/
def dictGet (d : List (String × String)) (k dflt : String) : String :=
  match d.lookup k with
  | some v => v
  | none => dflt

/-- FFMpegPlan.start_task: read format["tags"] (KeyError when the key is
missing), resolve TITLE/ALBUM/ARTIST with their fallbacks, update the task's
description and total (total = self.duration), then the base start_task. -/
def FFMpegPlan.start_task (pr : ProbeRun) (sourceName : String) (st : TaskState) :
    Except PyError TaskState :=
  match FFMpegPlan.format pr with
  | .error e => .error e
  | .ok fmt =>
    match fmt.tags with
    | none => .error (PyError.keyError "tags")
    | some tags =>
      let track_name := dictGet tags "TITLE" sourceName
      let track_album := dictGet tags "ALBUM" "UAL"
      let track_artist := dictGet tags "ARTIST" "UA"
      match FFMpegPlan.duration pr with
      | .error e => .error e
      | .ok dur =>
        .ok (Plan.start_task { st with
          description :=
            track_artist ++ " - " ++ pyRepr track_album ++ ": " ++ pyRepr track_name
          total := some dur })

/-- Mutable execution state of one FFMpegPlan while its subprocess runs: the
progress_us attribute, the task it updates, and the console diagnostics
printed so far. -/
structure FFState where
  task : TaskState
  progress_us : Nat
  log : List String
deriving DecidableEq, Repr

/-- The diagnostic progress.print produces for a non-decimal out_time_us value
(f-string "Invalid value for out time {value = !r}"). -/
def invalidValueMsg (value : String) : String :=
  "Invalid value for out time value = " ++ pyRepr value

/-- FFMpegPlan._handle_state_update: strip the line, partition it at the first
"=", and match the key: out_time_us with a decimal value sets progress_us and
the task's completed counter to that value; out_time_us with a non-decimal
value prints a diagnostic; every other key falls to the wildcard arm and does
nothing. -/
def FFMpegPlan.handle_state_update (st : FFState) (line : String) : FFState :=
  let kv := pyPartitionChar '=' (pyStrip line)
  if kv.1 = "out_time_us" then
    if pyIsDecimal kv.2 then
      let v := pyInt kv.2
      { st with progress_us := v, task := { st.task with completed := v } }
    else
      { st with log := st.log ++ [invalidValueMsg kv.2] }
  else st

/-- Behaviour of one ffmpeg subprocess run: the newline-terminated lines its
progress pipe yields before EOF, and its exit code. -/
structure FFMpegProc where
  lines : List String
  returncode : Int
deriving DecidableEq, Repr

/-- Result of FFMpegPlan._execute: the final execution state, the last line
read from the progress stream (the loop variable, "" when no line was read),
and the "Failed..." report printed on a non-zero exit (exit code and last
line). -/
structure ExecOut where
  ff : FFState
  lastLine : String
  failureMsg : Option (Int × String)
deriving DecidableEq, Repr

/-- FFMpegPlan._execute: make the destination's parent directory (its
environmental failure modes are outside the model), launch ffmpeg, feed every
line of its progress stream to _handle_state_update, busy-wait for exit, and
print a failure report when the exit code is non-zero. It raises nothing. -/
def FFMpegPlan.execUnder (proc : FFMpegProc) (st : FFState) : ExecOut :=
  let ff := proc.lines.foldl FFMpegPlan.handle_state_update st
  let line := (proc.lines.getLast?).getD ""
  { ff := ff
    lastLine := line
    failureMsg := if proc.returncode ≠ 0 then some (proc.returncode, line) else none }

/-- The external behaviour one FFMpegPlan.execute run observes. -/
structure FFMpegEnv where
  probe : ProbeRun
  proc : FFMpegProc
deriving DecidableEq, Repr

/-- Everything observable about one Plan.execute run. -/
structure RunOutcome where
  task : TaskState
  progress_us : Nat
  log : List String
  launched : Bool
  reported : Option (Int × String)
  raised : Option PyError
deriving DecidableEq, Repr

/-- Plan.execute for an FFMpegPlan: self.start_task(); self._execute();
self.completed() — with no exception handling, so an error raised by
start_task propagates before ffmpeg is launched and skips the rest. -/
def FFMpegPlan.execute (env : FFMpegEnv) (sourceName : String) (st : TaskState) :
    RunOutcome :=
  match FFMpegPlan.start_task env.probe sourceName st with
  | .error e =>
    { task := st
      progress_us := 0
      log := []
      launched := false
      reported := none
      raised := some e }
  | .ok st1 =>
    let r := FFMpegPlan.execUnder env.proc { task := st1, progress_us := 0, log := [] }
    { task := Plan.completed r.ff.task
      progress_us := r.ff.progress_us
      log := r.ff.log
      launched := true
      reported := r.failureMsg
      raised := none }

/-! ### CopyPlan -/

/-- The external behaviour one CopyPlan.execute run observes: the combined
outcome of mkdir(parents=True, exist_ok=True) and shutil.copy, either of which
can raise an I/O error. -/
structure CopyEnv where
  copyError : Option PyError
deriving DecidableEq, Repr

/-- CopyPlan._execute: mkdir then shutil.copy; raises the environment's I/O
error when there is one. -/
def CopyPlan.execUnder (env : CopyEnv) : Except PyError Unit :=
  match env.copyError with
  | some e => .error e
  | none => .ok ()

/-- Plan.execute for a CopyPlan: the base start_task (which cannot raise), the
copy, then completed() — again with no exception handling, so a raising copy
skips completed() and the exception propagates. -/
def CopyPlan.execute (env : CopyEnv) (st : TaskState) : TaskState × Option PyError :=
  let st1 := Plan.start_task st
  match CopyPlan.execUnder env with
  | .error e => (st1, some e)
  | .ok _ => (Plan.completed st1, none)

/-! ### The scheduler loop (main / exec_worker in src/recode/__main__.py) -/

/-- One job as the worker pool sees it: its kind, its source name (used for
the initial task registration) and the external behaviour it will observe. -/
inductive JobEnv
  | ff (sourceName : String) (env : FFMpegEnv)
  | cp (sourceName : String) (env : CopyEnv)
deriving DecidableEq, Repr

/-- Whether plan.execute() raises for this job (rather than returning, possibly
after printing a failure report). -/
def jobRaises (j : JobEnv) : Bool :=
  match j with
  | .ff name env =>
    ((FFMpegPlan.execute env name (Plan.add_task name "File Recode")).raised).isSome
  | .cp name env =>
    ((CopyPlan.execute env (Plan.add_task name "File Copy")).2).isSome

/-- exec_worker(plan): plan.execute(); render.total_progress.advance(total_task,
1). The advance is reached only when execute returns; when execute raises, the
exception propagates into the worker's future and the counter is not
advanced. -/
def exec_worker (counter : Nat) (j : JobEnv) : Nat :=
  if jobRaises j then counter else counter + 1

/-- The final value of the Files Processed counter after the pool has run
exactly the jobs in order — the jobs that actually started, in whatever order
they completed. The counter increments are atomic (rich advance takes a
lock), so the final value is the fold of exec_worker over that order. -/
def run_pool (order : List JobEnv) : Nat :=
  order.foldl exec_worker 0

/-- Which executions the scheduler loop admits. executor.map submits every job
up front and the pool's workers pull work items in submission order, so the
jobs that start form a prefix, of some length m, of the job list. When a
started job raises, the exception propagates out of the main thread's
list(executor.map(...)) and the map generator's cleanup cancels every
not-yet-started future, whose jobs then never run — so a proper prefix
(m < length) occurs only when some started job raised; when no started job
raises, nothing cancels and every submitted job runs (m = length). -/
def poolStartsValid (jobs : List JobEnv) (m : Nat) : Prop :=
  m ≤ jobs.length ∧ (m < jobs.length → ∃ j ∈ jobs.take m, jobRaises j = true)

/-! ### Theorems -/

/-- Any plan create_plan builds keeps its source argument as the job's source,
and its destination is the mirrored destination, with the suffix rewritten to
".ogg" exactly for the transcode variant. -/
theorem create_plan_shape (s d : PyPath) (j : Job) (h : create_plan s d = some j) :
    j.source = s ∧
      ((j.variant = .transcode ∧ j.dest = d.withSuffix ".ogg") ∨
        (j.variant = .copy ∧ j.dest = d)) := by
  unfold create_plan at h
  by_cases hn : s.name = ".localized"
  · simp [hn] at h
  · simp only [hn, if_false] at h
    rcases hcl : classify (pyLower (pySuffix s.name)) with _ | _ | _ | _ <;>
      rw [hcl] at h <;> simp only [Option.some.injEq, reduceCtorEq] at h <;>
      subst h <;> simp

/-- The same shape fact for the scan-loop body selectJob. -/
theorem selectJob_shape (src dst rel : PyPath) (j : Job)
    (h : selectJob src dst rel = some j) :
    j.source = pyJoin src rel ∧
      ((j.variant = .transcode ∧ j.dest = (pyJoin dst rel).withSuffix ".ogg") ∨
        (j.variant = .copy ∧ j.dest = pyJoin dst rel)) := by
  unfold selectJob at h
  by_cases hn : (pyJoin src rel).name = ".localized"
  · simp [hn] at h
  · rw [if_neg hn] at h
    exact create_plan_shape _ _ _ h

/-- C3: for every line of the transcoder's progress stream, with (key, value)
the partition of the stripped line at its first "=": an out_time_us key with a
decimal value sets the progress counter and the handle's completed counter to
that absolute value (replacing the prior value, whatever it was) and logs
nothing; an out_time_us key with a non-decimal value only appends a diagnostic
to the log, leaving completed and progress_us unchanged; any other key leaves
the whole state unchanged. -/
theorem c3_progress_protocol (st : FFState) (line key value : String)
    (hkv : pyPartitionChar '=' (pyStrip line) = (key, value)) :
    (key = "out_time_us" → pyIsDecimal value = true →
      FFMpegPlan.handle_state_update st line =
        { st with
          progress_us := pyInt value
          task := { st.task with completed := pyInt value } }) ∧
    (key = "out_time_us" → pyIsDecimal value = false →
      FFMpegPlan.handle_state_update st line =
        { st with log := st.log ++ [invalidValueMsg value] }) ∧
    (key ≠ "out_time_us" → FFMpegPlan.handle_state_update st line = st) := by
  refine ⟨fun hk hd => ?_, fun hk hd => ?_, fun hk => ?_⟩
  · simp only [FFMpegPlan.handle_state_update, hkv]
    simp [hk, hd]
  · simp only [FFMpegPlan.handle_state_update, hkv]
    simp [hk, hd]
  · simp only [FFMpegPlan.handle_state_update, hkv]
    simp [hk]

/-- Witness for C3 at concrete inputs: a decimal update line, an invalid line,
and a foreign key, starting from a nonzero prior completed value. -/
theorem c3_progress_protocol_witness :
    (FFMpegPlan.handle_state_update
        { task := Plan.add_task "a.flac" "File Recode", progress_us := 7, log := [] }
        "out_time_us=500000\n" =
      { task := { Plan.add_task "a.flac" "File Recode" with completed := 500000 }
        progress_us := 500000
        log := [] }) ∧
    (FFMpegPlan.handle_state_update
        { task := Plan.add_task "a.flac" "File Recode", progress_us := 7, log := [] }
        "out_time_us=N/A\n" =
      { task := Plan.add_task "a.flac" "File Recode"
        progress_us := 7
        log := ["Invalid value for out time value = " ++ pyRepr "N/A"] }) ∧
    (FFMpegPlan.handle_state_update
        { task := Plan.add_task "a.flac" "File Recode", progress_us := 7, log := [] }
        "bitrate=128k\n" =
      { task := Plan.add_task "a.flac" "File Recode", progress_us := 7, log := [] }) := by
  refine ⟨?_, ?_, ?_⟩
  · have h := (c3_progress_protocol
      { task := Plan.add_task "a.flac" "File Recode", progress_us := 7, log := [] }
      "out_time_us=500000\n" "out_time_us" "500000" (by decide)).1 rfl (by decide)
    rw [h]
    decide
  · have h := (c3_progress_protocol
      { task := Plan.add_task "a.flac" "File Recode", progress_us := 7, log := [] }
      "out_time_us=N/A\n" "out_time_us" "N/A" (by decide)).2.1 rfl (by decide)
    rw [h]
    decide
  · exact (c3_progress_protocol
      { task := Plan.add_task "a.flac" "File Recode", progress_us := 7, log := [] }
      "bitrate=128k\n" "bitrate" "128k" (by decide)).2.2 (by decide)

/-- A file_info error propagates through the format property. -/
theorem format_error (pr : ProbeRun) (e : PyError)
    (h : FFMpegPlan.file_info pr = .error e) : FFMpegPlan.format pr = .error e := by
  simp [FFMpegPlan.format, h, Except.map]

/-- A format error propagates through start_task. -/
theorem start_task_error (pr : ProbeRun) (name : String) (st : TaskState) (e : PyError)
    (h : FFMpegPlan.format pr = .error e) :
    FFMpegPlan.start_task pr name st = .error e := by
  unfold FFMpegPlan.start_task
  rw [h]

/-- A failing probe (non-zero exit or unparseable output) makes file_info
raise. -/
theorem file_info_error_of_probe_failure (pr : ProbeRun)
    (h : pr.returncode ≠ 0 ∨ pr.parsed = none) :
    ∃ e, FFMpegPlan.file_info pr = .error e := by
  unfold FFMpegPlan.file_info
  by_cases hrc : pr.returncode ≠ 0
  · exact ⟨.calledProcessError pr.returncode, by simp [hrc]⟩
  · have hp : pr.parsed = none := h.resolve_left (fun hc => hrc hc)
    exact ⟨.jsonDecodeError, by simp [hrc, hp]⟩

/-- C4: when the probe step of a transcode job fails — the prober exits
non-zero, or its output is not parseable — the whole job raises, and the
transcoder subprocess is never launched. -/
theorem c4_probe_failure_fatal (env : FFMpegEnv) (name : String) (st : TaskState)
    (h : env.probe.returncode ≠ 0 ∨ env.probe.parsed = none) :
    (∃ e, (FFMpegPlan.execute env name st).raised = some e) ∧
      (FFMpegPlan.execute env name st).launched = false := by
  obtain ⟨e, he⟩ := file_info_error_of_probe_failure env.probe h
  have hst := start_task_error env.probe name st e (format_error env.probe e he)
  unfold FFMpegPlan.execute
  rw [hst]
  exact ⟨⟨e, rfl⟩, rfl⟩

/-- Witness for C4: a prober that exits 1. -/
theorem c4_probe_failure_fatal_witness :
    (∃ e, (FFMpegPlan.execute
        { probe := { returncode := 1, parsed := none }
          proc := { lines := [], returncode := 0 } }
        "a.flac" (Plan.add_task "a.flac" "File Recode")).raised = some e) ∧
      (FFMpegPlan.execute
        { probe := { returncode := 1, parsed := none }
          proc := { lines := [], returncode := 0 } }
        "a.flac" (Plan.add_task "a.flac" "File Recode")).launched = false :=
  c4_probe_failure_fatal
    { probe := { returncode := 1, parsed := none }
      proc := { lines := [], returncode := 0 } }
    "a.flac" (Plan.add_task "a.flac" "File Recode") (Or.inl (by decide))

/-- C10: when the probe succeeds with well-formed JSON whose format object has
no "tags" key, start_task raises KeyError before any per-tag fallback applies,
so the job fails (and ffmpeg is never launched) even though file_info itself
succeeded. -/
theorem c10_missing_tags_raises (env : FFMpegEnv) (name : String) (st : TaskState)
    (out : FFProbeOutput)
    (hrc : env.probe.returncode = 0) (hp : env.probe.parsed = some out)
    (htags : out.format.tags = none) :
    FFMpegPlan.file_info env.probe = .ok out ∧
      (FFMpegPlan.execute env name st).raised = some (PyError.keyError "tags") ∧
      (FFMpegPlan.execute env name st).launched = false := by
  have hfi : FFMpegPlan.file_info env.probe = .ok out := by
    simp [FFMpegPlan.file_info, hrc, hp]
  have hfmt : FFMpegPlan.format env.probe = .ok out.format := by
    simp [FFMpegPlan.format, hfi, Except.map]
  have hst : FFMpegPlan.start_task env.probe name st = .error (PyError.keyError "tags") := by
    unfold FFMpegPlan.start_task
    rw [hfmt]
    simp [htags]
  unfold FFMpegPlan.execute
  rw [hst]
  exact ⟨hfi, rfl, rfl⟩

/-- Witness for C10: probe exits 0 with JSON lacking format.tags. -/
theorem c10_missing_tags_raises_witness :
    FFMpegPlan.file_info
        { returncode := 0
          parsed := some { format := { duration := "2.5", size := "9", tags := none } } } =
      .ok { format := { duration := "2.5", size := "9", tags := none } } ∧
      (FFMpegPlan.execute
        { probe := { returncode := 0
                     parsed := some { format := { duration := "2.5", size := "9", tags := none } } }
          proc := { lines := [], returncode := 0 } }
        "a.flac" (Plan.add_task "a.flac" "File Recode")).raised =
        some (PyError.keyError "tags") ∧
      (FFMpegPlan.execute
        { probe := { returncode := 0
                     parsed := some { format := { duration := "2.5", size := "9", tags := none } } }
          proc := { lines := [], returncode := 0 } }
        "a.flac" (Plan.add_task "a.flac" "File Recode")).launched = false :=
  c10_missing_tags_raises
    { probe := { returncode := 0
                 parsed := some { format := { duration := "2.5", size := "9", tags := none } } }
      proc := { lines := [], returncode := 0 } }
    "a.flac" (Plan.add_task "a.flac" "File Recode")
    { format := { duration := "2.5", size := "9", tags := none } }
    rfl rfl rfl

/-- dict.get(k, default) agrees with association-list lookup with a default. -/
theorem dictGet_eq_lookup (d : List (String × String)) (k dflt : String) :
    dictGet d k dflt = (d.lookup k).getD dflt := by
  unfold dictGet
  cases d.lookup k <;> rfl

/-- C8: for a transcode job whose probe succeeds (and whose format object has
a tags object and a parseable duration), start_task succeeds, builds the label
from the probed tags with the fallbacks "UA" for a missing ARTIST, "UAL" for a
missing ALBUM and the source file name for a missing TITLE, and sets the
handle's total to the probed duration in seconds times 1,000,000 (i.e.
converted to microseconds). -/
theorem c8_metadata_labels (pr : ProbeRun) (name : String) (st : TaskState)
    (fmt : FFProbeFormat) (tags : List (String × String)) (d : ℚ)
    (hfmt : FFMpegPlan.format pr = .ok fmt)
    (htags : fmt.tags = some tags)
    (hdur : parsePyFloat fmt.duration = some d) :
    FFMpegPlan.start_task pr name st =
      .ok { st with
        description :=
          ((tags.lookup "ARTIST").getD "UA") ++ " - " ++
            pyRepr ((tags.lookup "ALBUM").getD "UAL") ++ ": " ++
            pyRepr ((tags.lookup "TITLE").getD name)
        total := some (d * 1000000)
        started := true
        visible := true } := by
  have hd : FFMpegPlan.duration pr = .ok (d * 1000000) := by
    unfold FFMpegPlan.duration
    rw [hfmt]
    simp [hdur]
  unfold FFMpegPlan.start_task
  rw [hfmt]
  simp only [htags, hd, dictGet_eq_lookup]
  rfl

/-- Witness for C8: a successful probe with TITLE present but ALBUM and ARTIST
missing, duration "2.5" seconds; the label falls back to UA/UAL and the total
becomes 2,500,000 microseconds. -/
theorem c8_metadata_labels_witness :
    FFMpegPlan.start_task
        { returncode := 0
          parsed := some { format :=
            { duration := "2.5", size := "9", tags := some [("TITLE", "Song")] } } }
        "a.flac" (Plan.add_task "a.flac" "File Recode") =
      .ok { Plan.add_task "a.flac" "File Recode" with
        description := "UA - " ++ pyRepr "UAL" ++ ": " ++ pyRepr "Song"
        total := some ((5 : ℚ) / 2 * 1000000)
        started := true
        visible := true } := by
  have h := c8_metadata_labels
    { returncode := 0
      parsed := some { format :=
        { duration := "2.5", size := "9", tags := some [("TITLE", "Song")] } } }
    "a.flac" (Plan.add_task "a.flac" "File Recode")
    { duration := "2.5", size := "9", tags := some [("TITLE", "Song")] }
    [("TITLE", "Song")] ((5 : ℚ) / 2) rfl rfl
    (by
      simp +decide only [parsePyFloat, pyStrip, splitAtFirst, digitsVal]
      norm_num [show ('2'.toNat) = 50 from by decide, show ('5'.toNat) = 53 from by decide])
  rw [h]
  rfl

/-- The counter fold adds one per job whose execute returns (does not raise). -/
theorem foldl_exec_worker (l : List JobEnv) (n : Nat) :
    l.foldl exec_worker n = n + l.countP (fun j => !jobRaises j) := by
  induction l generalizing n with
  | nil => simp
  | cons j l ih =>
    simp only [List.foldl_cons, List.countP_cons]
    rw [ih]
    unfold exec_worker
    by_cases h : jobRaises j
    · simp [h]
    · simp [h]
      omega

/-- C1 counterexample: a single selected job whose copy step raises an I/O
error; after execution the processed counter reads 0, not the selected count
1 — so the counter does not equal the number of selected jobs whenever a
failing job fails by raising. -/
theorem c1_counterexample :
    run_pool [JobEnv.cp "b.mp3" { copyError := some PyError.ioError }] ≠
      [JobEnv.cp "b.mp3" { copyError := some PyError.ioError }].length := by
  decide

/-- C1 (amended): for every discovered job list and every execution the pool
admits — the jobs that start are a prefix of the list, a proper prefix only
when a started job raised (the exception cancels the not-yet-started
futures), completing in any order — the processed counter ends exactly at the
number of started jobs whose execute returned normally: started jobs whose
failure is only reported (transcoder non-zero exit) still count, started jobs
whose execute raises and cancelled jobs do not; when no job raises every job
runs and the counter equals the number of selected jobs, for every pool size
1..N. -/
theorem c1_processed_counter (jobs : List JobEnv) (m : Nat) (order : List JobEnv)
    (hvalid : poolStartsValid jobs m) (hperm : order.Perm (jobs.take m)) :
    run_pool order = (jobs.take m).countP (fun j => !jobRaises j) ∧
      ((∀ j ∈ jobs, jobRaises j = false) →
        jobs.take m = jobs ∧ run_pool order = jobs.length) := by
  have h1 : run_pool order = order.countP (fun j => !jobRaises j) := by
    simpa using foldl_exec_worker order 0
  have hcount : run_pool order = (jobs.take m).countP (fun j => !jobRaises j) :=
    h1.trans (hperm.countP_eq _)
  refine ⟨hcount, fun hall => ?_⟩
  have hm : jobs.length ≤ m := by
    by_contra hlt
    push_neg at hlt
    obtain ⟨j, hj, hr⟩ := hvalid.2 hlt
    rw [hall j (List.take_subset m jobs hj)] at hr
    exact Bool.false_ne_true hr
  have htake : jobs.take m = jobs := List.take_of_length_le hm
  refine ⟨htake, ?_⟩
  rw [hcount, htake, List.countP_eq_length]
  intro j hj
  simp [hall j hj]

/-- Witness for C1: a three-job list whose second job raises, in an execution
where only the first two start (admissible, since the raiser started) and
complete in swapped order, yields a processed count of 1; a lone non-raising
job must run and gives a processed count equal to the selected count. -/
theorem c1_processed_counter_witness :
    run_pool [JobEnv.cp "b.mp3" { copyError := some PyError.ioError },
      JobEnv.cp "a.mp3" { copyError := none }] = 1 ∧
      run_pool [JobEnv.cp "a.mp3" { copyError := none }] = 1 :=
  ⟨((c1_processed_counter
      [JobEnv.cp "a.mp3" { copyError := none },
        JobEnv.cp "b.mp3" { copyError := some PyError.ioError },
        JobEnv.cp "c.mp3" { copyError := none }]
      2
      [JobEnv.cp "b.mp3" { copyError := some PyError.ioError },
        JobEnv.cp "a.mp3" { copyError := none }]
      ⟨by decide,
        fun _ => ⟨JobEnv.cp "b.mp3" { copyError := some PyError.ioError },
          by decide, by decide⟩⟩
      (List.Perm.swap _ _ _)).1).trans (by decide),
    ((c1_processed_counter [JobEnv.cp "a.mp3" { copyError := none }] 1
      [JobEnv.cp "a.mp3" { copyError := none }]
      ⟨by decide, fun h => absurd h (by decide)⟩
      (List.Perm.refl _)).2 (by decide)).2⟩

/-- C2 counterexample: a copy job whose dispatch raises an I/O error; execute
propagates the exception and the progress handle is left visible — the
invisible/finished marking did not happen, so the release is not
unconditional. -/
theorem c2_counterexample :
    (CopyPlan.execute { copyError := some PyError.ioError }
        (Plan.add_task "b.mp3" "File Copy")).2 = some PyError.ioError ∧
      (CopyPlan.execute { copyError := some PyError.ioError }
        (Plan.add_task "b.mp3" "File Copy")).1.visible = true := by
  decide

/-- C2 (amended): execute marks the handle visible/started before dispatch,
and marks it invisible/finished when the dispatch step returns normally; but
the release is conditional: when dispatch (or, for a transcode, start_task)
raises, the exception propagates and the handle is left exactly as it was
before the raise — visible for a raising copy, untouched for a transcode
whose start_task raised. -/
theorem c2_bracketing (cenv : CopyEnv) (fenv : FFMpegEnv) (name : String)
    (st : TaskState) :
    (Plan.start_task st).visible = true ∧
      ((CopyPlan.execute cenv st).2 = none →
        CopyPlan.execute cenv st = (Plan.completed (Plan.start_task st), none)) ∧
      ((CopyPlan.execute cenv st).2 ≠ none →
        (CopyPlan.execute cenv st).1 = Plan.start_task st) ∧
      ((FFMpegPlan.execute fenv name st).launched = true →
        (FFMpegPlan.execute fenv name st).task.visible = false) ∧
      ((FFMpegPlan.execute fenv name st).raised ≠ none →
        (FFMpegPlan.execute fenv name st).task = st) := by
  refine ⟨rfl, ?_, ?_, ?_, ?_⟩
  · intro h
    unfold CopyPlan.execute CopyPlan.execUnder at h ⊢
    cases henv : cenv.copyError with
    | none => rfl
    | some e => rw [henv] at h; simp at h
  · intro h
    unfold CopyPlan.execute CopyPlan.execUnder at h ⊢
    cases henv : cenv.copyError with
    | none => rw [henv] at h; simp at h
    | some e => rfl
  · intro h
    unfold FFMpegPlan.execute at h ⊢
    cases hst : FFMpegPlan.start_task fenv.probe name st with
    | error e => rw [hst] at h; simp at h
    | ok st1 =>
      have hvis : ∀ (ff : FFState) (lines : List String),
          (lines.foldl FFMpegPlan.handle_state_update ff).task.visible =
            ff.task.visible := by
        intro ff lines
        induction lines generalizing ff with
        | nil => rfl
        | cons a l ihl =>
          rw [List.foldl_cons, ihl]
          unfold FFMpegPlan.handle_state_update
          by_cases hk : (pyPartitionChar '=' (pyStrip a)).1 = "out_time_us" <;>
            by_cases hd : pyIsDecimal (pyPartitionChar '=' (pyStrip a)).2 <;>
            simp [hk, hd]
      simp [FFMpegPlan.execUnder, Plan.completed]
  · intro h
    unfold FFMpegPlan.execute at h ⊢
    cases hst : FFMpegPlan.start_task fenv.probe name st with
    | error e => rfl
    | ok st1 => rw [hst] at h; simp at h

/-- Witness for C2: a succeeding copy ends invisible, a raising copy stays
visible, a launched transcode ends invisible. -/
theorem c2_bracketing_witness :
    (CopyPlan.execute { copyError := none } (Plan.add_task "b.mp3" "File Copy") =
      (Plan.completed (Plan.start_task (Plan.add_task "b.mp3" "File Copy")), none)) ∧
      (CopyPlan.execute { copyError := some PyError.ioError }
          (Plan.add_task "b.mp3" "File Copy")).1 =
        Plan.start_task (Plan.add_task "b.mp3" "File Copy") :=
  ⟨(c2_bracketing { copyError := none }
      { probe := { returncode := 0, parsed := none }
        proc := { lines := [], returncode := 0 } }
      "b.mp3" (Plan.add_task "b.mp3" "File Copy")).2.1 rfl,
    (c2_bracketing { copyError := some PyError.ioError }
      { probe := { returncode := 0, parsed := none }
        proc := { lines := [], returncode := 0 } }
      "b.mp3" (Plan.add_task "b.mp3" "File Copy")).2.2.1 (by decide)⟩

/-- C5 counterexample: a transcode job whose prober exits 1; execute raises,
the transcoder never runs, and the handle keeps its original filename
description and default total — there is no degraded filename-only labeling
of a still-running transcode. -/
theorem c5_counterexample :
    (FFMpegPlan.execute
        { probe := { returncode := 1, parsed := none }
          proc := { lines := ["out_time_us=1\n"], returncode := 0 } }
        "a.flac" (Plan.add_task "a.flac" "File Recode")).raised ≠ none ∧
      (FFMpegPlan.execute
        { probe := { returncode := 1, parsed := none }
          proc := { lines := ["out_time_us=1\n"], returncode := 0 } }
        "a.flac" (Plan.add_task "a.flac" "File Recode")).launched = false ∧
      (FFMpegPlan.execute
        { probe := { returncode := 1, parsed := none }
          proc := { lines := ["out_time_us=1\n"], returncode := 0 } }
        "a.flac" (Plan.add_task "a.flac" "File Recode")).task =
        Plan.add_task "a.flac" "File Recode" :=
  ⟨by decide, rfl, rfl⟩

/-- C5 (amended): a metadata (probe) failure DOES abort the transcode job: the
exception propagates out of execute, the transcoder subprocess never runs,
and the progress handle is left untouched (no filename-only relabeling, no
indeterminate total is installed). Graceful fallbacks exist only for
individual missing tags when the probe itself succeeds. -/
theorem c5_probe_failure_aborts (env : FFMpegEnv) (name : String) (st : TaskState)
    (h : env.probe.returncode ≠ 0 ∨ env.probe.parsed = none) :
    (FFMpegPlan.execute env name st).raised ≠ none ∧
      (FFMpegPlan.execute env name st).launched = false ∧
      (FFMpegPlan.execute env name st).task = st := by
  obtain ⟨e, he⟩ := file_info_error_of_probe_failure env.probe h
  have hst := start_task_error env.probe name st e (format_error env.probe e he)
  unfold FFMpegPlan.execute
  rw [hst]
  exact ⟨by simp, rfl, rfl⟩

/-- Witness for C5: a prober whose output is unparseable. -/
theorem c5_probe_failure_aborts_witness :
    (FFMpegPlan.execute
        { probe := { returncode := 0, parsed := none }
          proc := { lines := [], returncode := 0 } }
        "b.flac" (Plan.add_task "b.flac" "File Recode")).raised ≠ none ∧
      (FFMpegPlan.execute
        { probe := { returncode := 0, parsed := none }
          proc := { lines := [], returncode := 0 } }
        "b.flac" (Plan.add_task "b.flac" "File Recode")).launched = false ∧
      (FFMpegPlan.execute
        { probe := { returncode := 0, parsed := none }
          proc := { lines := [], returncode := 0 } }
        "b.flac" (Plan.add_task "b.flac" "File Recode")).task =
        Plan.add_task "b.flac" "File Recode" :=
  c5_probe_failure_aborts
    { probe := { returncode := 0, parsed := none }
      proc := { lines := [], returncode := 0 } }
    "b.flac" (Plan.add_task "b.flac" "File Recode") (Or.inr rfl)

/-- Spec-side description (for comparison with the driver): the out_time_us
value a single progress line carries, when its key is out_time_us and its
value is decimal. -/
def specOutTimeVal (line : String) : Option Nat :=
  let kv := pyPartitionChar '=' (pyStrip line)
  if kv.1 = "out_time_us" && pyIsDecimal kv.2 then some (pyInt kv.2) else none

/-- Spec-side description: the last valid decimal out_time_us value carried by
a list of progress lines, if any. -/
def specLastValidOutTime : List String → Option Nat
  | [] => none
  | line :: rest =>
    match specLastValidOutTime rest with
    | some v => some v
    | none => specOutTimeVal line

/-- One driver step moves progress_us and the handle's completed counter to the
line's out_time_us value when it has one, and leaves them unchanged
otherwise. -/
theorem handle_update_fields (st : FFState) (line : String) :
    (FFMpegPlan.handle_state_update st line).progress_us =
        (specOutTimeVal line).getD st.progress_us ∧
      (FFMpegPlan.handle_state_update st line).task.completed =
        (specOutTimeVal line).getD st.task.completed := by
  unfold FFMpegPlan.handle_state_update specOutTimeVal
  by_cases hk : (pyPartitionChar '=' (pyStrip line)).1 = "out_time_us" <;>
    by_cases hd : pyIsDecimal (pyPartitionChar '=' (pyStrip line)).2 <;>
    simp [hk, hd]

/-- Folding the driver over a line list leaves progress_us at the last valid
out_time_us value, or at its initial value when no line carried one. -/
theorem foldl_update_fields (lines : List String) (st : FFState) :
    (lines.foldl FFMpegPlan.handle_state_update st).progress_us =
        (specLastValidOutTime lines).getD st.progress_us ∧
      (lines.foldl FFMpegPlan.handle_state_update st).task.completed =
        (specLastValidOutTime lines).getD st.task.completed := by
  induction lines generalizing st with
  | nil => exact ⟨rfl, rfl⟩
  | cons a l ih =>
    rw [List.foldl_cons]
    constructor
    · rw [(ih _).1]
      cases hrec : specLastValidOutTime l with
      | some v => simp [specLastValidOutTime, hrec]
      | none => simp [specLastValidOutTime, hrec, (handle_update_fields st a).1]
    · rw [(ih _).2]
      cases hrec : specLastValidOutTime l with
      | some v => simp [specLastValidOutTime, hrec]
      | none => simp [specLastValidOutTime, hrec, (handle_update_fields st a).2]

/-- C6: after the progress stream closes, the driver's termination behaviour:
a non-zero exit code produces a failure report carrying exactly the exit code
and the last line read from the stream, a zero exit code produces none; the
progress counter and the handle's completed value are frozen at the last
valid decimal out_time_us received (or their prior value if none arrived);
and a launched transcode never raises — a reported failure does not abort the
run. -/
theorem c6_termination (proc : FFMpegProc) (st : FFState) (env : FFMpegEnv)
    (name : String) (st0 : TaskState) :
    (proc.returncode ≠ 0 →
        (FFMpegPlan.execUnder proc st).failureMsg =
          some (proc.returncode, (FFMpegPlan.execUnder proc st).lastLine)) ∧
      (proc.returncode = 0 → (FFMpegPlan.execUnder proc st).failureMsg = none) ∧
      (FFMpegPlan.execUnder proc st).ff.progress_us =
        (specLastValidOutTime proc.lines).getD st.progress_us ∧
      (FFMpegPlan.execUnder proc st).ff.task.completed =
        (specLastValidOutTime proc.lines).getD st.task.completed ∧
      ((FFMpegPlan.execute env name st0).launched = true →
        (FFMpegPlan.execute env name st0).raised = none) := by
  refine ⟨fun hne => ?_, fun heq => ?_, (foldl_update_fields proc.lines st).1,
    (foldl_update_fields proc.lines st).2, fun hl => ?_⟩
  · unfold FFMpegPlan.execUnder
    simp [hne]
  · unfold FFMpegPlan.execUnder
    simp [heq]
  · unfold FFMpegPlan.execute at hl ⊢
    cases hst : FFMpegPlan.start_task env.probe name st0 with
    | error e => rw [hst] at hl; simp at hl
    | ok st1 => rfl

/-- Witness for C6 at the spec's scenario: lines out_time_us=500000 then
out_time_us=N/A, exit code 1 — failure report (1, "out_time_us=N/A\n"),
completed frozen at 500000. -/
theorem c6_termination_witness :
    (FFMpegPlan.execUnder { lines := ["out_time_us=500000\n", "out_time_us=N/A\n"], returncode := 1 }
        { task := Plan.add_task "a.flac" "File Recode", progress_us := 0, log := [] }).failureMsg =
      some (1, "out_time_us=N/A\n") ∧
      (FFMpegPlan.execUnder { lines := ["out_time_us=500000\n", "out_time_us=N/A\n"], returncode := 1 }
        { task := Plan.add_task "a.flac" "File Recode", progress_us := 0, log := [] }).ff.progress_us =
        500000 ∧
      (FFMpegPlan.execUnder { lines := ["out_time_us=500000\n", "out_time_us=N/A\n"], returncode := 1 }
        { task := Plan.add_task "a.flac" "File Recode", progress_us := 0, log := [] }).ff.task.completed =
        500000 := by
  have h := c6_termination
    { lines := ["out_time_us=500000\n", "out_time_us=N/A\n"], returncode := 1 }
    { task := Plan.add_task "a.flac" "File Recode", progress_us := 0, log := [] }
    { probe := { returncode := 0, parsed := none }, proc := { lines := [], returncode := 0 } }
    "a.flac" (Plan.add_task "a.flac" "File Recode")
  exact ⟨(h.1 (by decide)).trans (by decide), h.2.2.1.trans (by decide),
    h.2.2.2.1.trans (by decide)⟩

/-- C7: discovery on the source tree a.flac, b.mp3, c.jpg, .localized with
destination root out builds exactly the jobs a.flac → out/a.ogg (transcode)
and b.mp3 → out/b.mp3 (copy), with c.jpg and .localized producing none and
the counters reading scanned 4, selected 2; and in general every built job's
source is the scanned root joined with the file's relative path, and its
destination mirrors that relative path onto the destination root — with the
extension rewritten to ".ogg" for transcode jobs and preserved for copy
jobs. -/
theorem c7_discovery_scenario :
    create_plans true [⟨["a.flac"]⟩, ⟨["b.mp3"]⟩, ⟨["c.jpg"]⟩, ⟨[".localized"]⟩]
        ⟨["tree"]⟩ ⟨["out"]⟩ =
      { jobs := [⟨⟨["tree", "a.flac"]⟩, ⟨["out", "a.ogg"]⟩, .transcode⟩,
                 ⟨⟨["tree", "b.mp3"]⟩, ⟨["out", "b.mp3"]⟩, .copy⟩]
        scanned := 4
        selectedTotal := 2 } ∧
      ∀ (files : List PyPath) (src dst : PyPath) (j : Job),
        j ∈ (create_plans true files src dst).jobs →
        ∃ rel ∈ files, j.source = pyJoin src rel ∧
          (j.variant = .transcode → j.dest = (pyJoin dst rel).withSuffix ".ogg") ∧
          (j.variant = .copy → j.dest = pyJoin dst rel) := by
  constructor
  · decide
  · intro files src dst j hj
    have hj2 : j ∈ files.filterMap (selectJob src dst) := by
      have : (create_plans true files src dst).jobs =
          sortJobs (files.filterMap (selectJob src dst)) := rfl
      rw [this] at hj
      exact (List.perm_insertionSort jobLEkey _).mem_iff.mp hj
    rw [List.mem_filterMap] at hj2
    obtain ⟨rel, hrel, hsel⟩ := hj2
    obtain ⟨hsrc, hcase⟩ := selectJob_shape src dst rel j hsel
    refine ⟨rel, hrel, hsrc, fun hv => ?_, fun hv => ?_⟩
    · rcases hcase with ⟨_, hd⟩ | ⟨hv2, _⟩
      · exact hd
      · rw [hv] at hv2
        cases hv2
    · rcases hcase with ⟨hv2, _⟩ | ⟨_, hd⟩
      · rw [hv] at hv2
        cases hv2
      · exact hd

/-- Witness for C7's general clause: the transcode job of the scenario indeed
arises from the relative path a.flac. -/
theorem c7_discovery_scenario_witness :
    ∃ rel ∈ ([⟨["a.flac"]⟩, ⟨["b.mp3"]⟩, ⟨["c.jpg"]⟩, ⟨[".localized"]⟩] : List PyPath),
      (⟨⟨["tree", "a.flac"]⟩, ⟨["out", "a.ogg"]⟩, .transcode⟩ : Job).source =
          pyJoin ⟨["tree"]⟩ rel ∧
        ((⟨⟨["tree", "a.flac"]⟩, ⟨["out", "a.ogg"]⟩, .transcode⟩ : Job).variant =
            .transcode →
          (⟨⟨["tree", "a.flac"]⟩, ⟨["out", "a.ogg"]⟩, .transcode⟩ : Job).dest =
            (pyJoin ⟨["out"]⟩ rel).withSuffix ".ogg") ∧
        ((⟨⟨["tree", "a.flac"]⟩, ⟨["out", "a.ogg"]⟩, .transcode⟩ : Job).variant =
            .copy →
          (⟨⟨["tree", "a.flac"]⟩, ⟨["out", "a.ogg"]⟩, .transcode⟩ : Job).dest =
            pyJoin ⟨["out"]⟩ rel) :=
  c7_discovery_scenario.2 [⟨["a.flac"]⟩, ⟨["b.mp3"]⟩, ⟨["c.jpg"]⟩, ⟨[".localized"]⟩]
    ⟨["tree"]⟩ ⟨["out"]⟩ ⟨⟨["tree", "a.flac"]⟩, ⟨["out", "a.ogg"]⟩, .transcode⟩
    (by decide)

instance : IsTotal Job jobLEkey :=
  ⟨fun a b => le_total (jobKey a) (jobKey b)⟩

instance : IsTrans Job jobLEkey :=
  ⟨fun _ _ _ hab hbc => le_trans hab hbc⟩

/-- Mapping a key over a filterMap result is a sublist of mapping the
corresponding key over the original list, when the selection preserves the
key. -/
theorem filterMap_map_sublist {α β γ : Type} (g : α → Option β) (k : β → γ)
    (kf : α → γ) (h : ∀ a b, g a = some b → k b = kf a) (l : List α) :
    ((l.filterMap g).map k).Sublist (l.map kf) := by
  induction l with
  | nil => simp
  | cons a l ih =>
    cases hg : g a with
    | none =>
      rw [List.map_cons, List.filterMap_cons, hg]
      exact ih.cons (kf a)
    | some b =>
      rw [List.map_cons, List.filterMap_cons, hg, List.map_cons, h a b hg]
      exact ih.cons₂ (kf a)

/-- C9: discovery is deterministic and idempotent — its job list is sorted by
source path, and two discovery runs over the same tree (the same set of
regular files with pairwise-distinct source paths, in whatever enumeration
order the walk yields them) return identical results: the same jobs in the
same order and the same counters. -/
theorem c9_discovery_deterministic (srcE : Bool) (files1 files2 : List PyPath)
    (src dst : PyPath) (hperm : files1.Perm files2)
    (hnd : (files1.map (fun f => pathStr (pyJoin src f))).Nodup) :
    List.Sorted jobLEkey (create_plans srcE files1 src dst).jobs ∧
      create_plans srcE files1 src dst = create_plans srcE files2 src dst := by
  cases srcE with
  | false => exact ⟨List.sorted_nil, rfl⟩
  | true =>
    have hdataInj : Function.Injective String.data := fun a b hab => by
      cases a
      cases b
      exact congrArg String.mk hab
    have hkey : ∀ rel j, selectJob src dst rel = some j →
        jobKey j = (pathStr (pyJoin src rel)).data := fun rel j hs => by
      rw [jobKey, (selectJob_shape src dst rel j hs).1]
    have hndData : ∀ (fs : List PyPath), fs.Perm files1 →
        (fs.map (fun f => (pathStr (pyJoin src f)).data)).Nodup := by
      intro fs hp
      have h1 : (fs.map (fun f => pathStr (pyJoin src f))).Nodup :=
        ((hp.map (fun f => pathStr (pyJoin src f))).symm).nodup hnd
      have h2 := h1.map (f := String.data) hdataInj
      rwa [List.map_map] at h2
    have strictOf : ∀ (fs : List PyPath), fs.Perm files1 →
        List.Pairwise (fun a b : Job => jobKey a < jobKey b)
          (sortJobs (fs.filterMap (selectJob src dst))) := by
      intro fs hp
      have hsub : ((fs.filterMap (selectJob src dst)).map jobKey).Sublist
          (fs.map (fun f => (pathStr (pyJoin src f)).data)) :=
        filterMap_map_sublist _ _ _ hkey fs
      have hndKeys : ((fs.filterMap (selectJob src dst)).map jobKey).Nodup :=
        hsub.nodup (hndData fs hp)
      have hndSorted :
          ((sortJobs (fs.filterMap (selectJob src dst))).map jobKey).Nodup :=
        (((List.perm_insertionSort jobLEkey _).map jobKey).symm).nodup hndKeys
      have hne : List.Pairwise (fun a b : Job => jobKey a ≠ jobKey b)
          (sortJobs (fs.filterMap (selectJob src dst))) :=
        List.pairwise_map.mp hndSorted
      have hle : List.Sorted jobLEkey (sortJobs (fs.filterMap (selectJob src dst))) :=
        List.sorted_insertionSort jobLEkey _
      exact (hle.and hne).imp (fun hab => lt_of_le_of_ne hab.1 hab.2)
    have hout : (files1.filterMap (selectJob src dst)).Perm
        (files2.filterMap (selectJob src dst)) := hperm.filterMap _
    have hsortperm : (sortJobs (files1.filterMap (selectJob src dst))).Perm
        (sortJobs (files2.filterMap (selectJob src dst))) :=
      (List.perm_insertionSort jobLEkey _).trans
        (hout.trans (List.perm_insertionSort jobLEkey _).symm)
    haveI : IsAntisymm Job (fun a b : Job => jobKey a < jobKey b) :=
      ⟨fun a b h1 h2 => absurd (lt_trans h1 h2) (lt_irrefl _)⟩
    have hjobs : sortJobs (files1.filterMap (selectJob src dst)) =
        sortJobs (files2.filterMap (selectJob src dst)) :=
      List.eq_of_perm_of_sorted hsortperm (strictOf files1 (List.Perm.refl _))
        (strictOf files2 hperm.symm)
    refine ⟨List.sorted_insertionSort jobLEkey _, ?_⟩
    show DiscoverResult.mk _ _ _ = DiscoverResult.mk _ _ _
    rw [hjobs, hperm.length_eq, hout.length_eq]

/-- Witness for C9: the same two-file tree enumerated in two different orders
yields the identical sorted discovery result. -/
theorem c9_discovery_deterministic_witness :
    List.Sorted jobLEkey
        (create_plans true [⟨["b.mp3"]⟩, ⟨["a.flac"]⟩] ⟨["tree"]⟩ ⟨["out"]⟩).jobs ∧
      create_plans true [⟨["b.mp3"]⟩, ⟨["a.flac"]⟩] ⟨["tree"]⟩ ⟨["out"]⟩ =
        create_plans true [⟨["a.flac"]⟩, ⟨["b.mp3"]⟩] ⟨["tree"]⟩ ⟨["out"]⟩ :=
  c9_discovery_deterministic true [⟨["b.mp3"]⟩, ⟨["a.flac"]⟩]
    [⟨["a.flac"]⟩, ⟨["b.mp3"]⟩] ⟨["tree"]⟩ ⟨["out"]⟩
    (List.Perm.swap _ _ _) (by decide)
